import Mathlib

/-
Shallow embedding of the daily job search automation script
(src/daily-job-search-automation.py).  The file contains two revisions of
the same script; the later revision (from line 212 on) is the live one and
is the code embedded here: the earlier revision is fully commented out.

Conventions of the embedding:
- Python strings become Lean String; str.lower() becomes lowerStr, which
  maps Char.toLower over the character data (the keyword lists are ASCII,
  so the ASCII case fold of Lean matches the Python behaviour on them).
- The substring test (the k in text operator of Python) becomes substrOf
  on character lists.
- The HTTP call of serpapi_search is a collaborator boundary: it is
  modelled as a value of type Except String SerpPayload supplied by a
  provider function, error meaning any raised exception (network error,
  timeout, raise_for_status, JSON decode failure).  The body of
  serpapi_search after the try block is embedded directly.
- organic_results = none models a payload in which the key is absent or
  its value is not a list (the isinstance check of the source).
- The set seen_links becomes a List String with membership tests; dict
  records become structures.  The stateful loop of collect_jobs becomes a
  left fold over the flattened (role, location, raw result) stream, which
  preserves the exact processing order of the nested loops.
- jobs.sort(key=lambda x: x.official_site, reverse=True) is the stable
  sort of Python; it is embedded as List.mergeSort (stable) with the
  comparison a.official_site >= b.official_site.
- csv.writer with the default dialect quotes a field iff it contains a
  comma, a double quote, CR or LF, doubling embedded quotes, and
  terminates rows with CRLF; writerow applies str() to booleans, giving
  True / False.  It never rewrites characters inside a field.
- main() reads no configuration guard: the embedding of main records the
  search parameters issued, whether mail was attempted, and the process
  exit code (an uncaught SMTP exception makes the interpreter exit 1,
  modelled by the mailOk flag).
-/

namespace JobAlert

-- ---------------- CONFIG ----------------

def ROLES : List String :=
  ["software developer", "react js developer", "frontend developer", "react native developer"]

def LOCATIONS : List String := ["Chennai", "India"]

def EXPERIENCE_KEYWORDS : List String :=
  ["fresher", "entry level", "junior", "0-1", "0-2", "0-3", "1 year", "2 years", "3 years"]

def OFFICIAL_KEYWORDS : List String :=
  ["careers", "jobs", "workday", "myworkdayjobs", "greenhouse", "lever", "ashby"]

def MAX_RESULTS : Nat := 10

-- ---------------- HELPERS (classifier) ----------------

def startsWithL : List Char → List Char → Bool
  | [], _ => true
  | _ :: _, [] => false
  | a :: as, b :: bs => a == b && startsWithL as bs

def substrOf (needle : List Char) : List Char → Bool
  | [] => needle.isEmpty
  | c :: t => startsWithL needle (c :: t) || substrOf needle t

-- the Python expression: needle in hay
def pyIn (needle hay : String) : Bool := substrOf needle.data hay.data

-- the Python expression: s.lower()
def lowerStr (s : String) : String := ⟨s.data.map Char.toLower⟩

def experience_match (text : String) : Bool :=
  let t := lowerStr text
  EXPERIENCE_KEYWORDS.any fun k => pyIn k t

def is_official_site (url : String) : Bool :=
  let u := lowerStr url
  OFFICIAL_KEYWORDS.any fun k => pyIn k u

-- ---------------- SEARCH ----------------

structure SerpItem where
  title : Option String
  link : Option String
  snippet : Option String
  displayed_link : Option String
deriving DecidableEq

structure SerpPayload where
  organic_results : Option (List SerpItem)
deriving DecidableEq

structure SearchParams where
  q : String
  location : String
  api_key : Option String
  gl : String
  hl : String
  tbs : String
deriving DecidableEq

structure RawResult where
  title : String
  link : String
  snippet : String
  source : String
deriving DecidableEq

def mkParams (key : Option String) (query location : String) : SearchParams :=
  { q := query, location := location, api_key := key, gl := "in", hl := "en", tbs := "qdr:w" }

def serpapi_search : Except String SerpPayload → List RawResult
  | Except.error _ => []
  | Except.ok data =>
    match data.organic_results with
    | none => []
    | some items =>
      (items.take MAX_RESULTS).map fun item =>
        { title := item.title.getD "", link := item.link.getD "",
          snippet := item.snippet.getD "", source := item.displayed_link.getD "" }

-- ---------------- COLLECTOR ----------------

structure JobRecord where
  role : String
  location : String
  title : String
  link : String
  source : String
  official_site : Bool
  experience_match : Bool
  snippet : String
deriving DecidableEq

def mkJobRecord (role location : String) (r : RawResult) : JobRecord :=
  { role := role, location := location, title := r.title, link := r.link,
    source := r.source, official_site := is_official_site r.link,
    experience_match := experience_match (r.title ++ " " ++ r.snippet),
    snippet := r.snippet }

structure Env where
  SERPAPI_API_KEY : Option String
  SMTP_USER : Option String
  SMTP_PASS : Option String
  RECIPIENT_EMAIL : Option String

abbrev Provider := SearchParams → Except String SerpPayload

def queriesFor (role location : String) : List String :=
  [role ++ " " ++ location ++ " fresher",
   role ++ " " ++ location ++ " junior",
   role ++ " " ++ location ++ " 0-3 years"]

def buildQueries (roles locations : List String) : List String :=
  roles.flatMap fun role => locations.flatMap fun location => queriesFor role location

def runSearch (provider : Provider) (p : SearchParams) : List RawResult :=
  serpapi_search (provider p)

def entriesOf (env : Env) (search : SearchParams → List RawResult) :
    List (String × String × RawResult) :=
  ROLES.flatMap fun role =>
    LOCATIONS.flatMap fun location =>
      (queriesFor role location).flatMap fun query =>
        (search (mkParams env.SERPAPI_API_KEY query location)).map fun r => (role, location, r)

def collectEntries (env : Env) (provider : Provider) : List (String × String × RawResult) :=
  entriesOf env (runSearch provider)

def dedupStep (st : List String × List JobRecord) (e : String × String × RawResult) :
    List String × List JobRecord :=
  if e.2.2.link = "" ∨ e.2.2.link ∈ st.1 then st
  else (e.2.2.link :: st.1, st.2 ++ [mkJobRecord e.1 e.2.1 e.2.2])

def collectRaw (env : Env) (provider : Provider) : List JobRecord :=
  ((collectEntries env provider).foldl dedupStep ([], [])).2

def officialLe (a b : JobRecord) : Bool := a.official_site || !b.official_site

def sortJobs (l : List JobRecord) : List JobRecord := l.mergeSort officialLe

def collect_jobs (env : Env) (provider : Provider) : List JobRecord :=
  sortJobs (collectRaw env provider)

-- ---------------- EMAIL ----------------

def pyStrBool : Bool → String
  | true => "True"
  | false => "False"

def needsQuote (s : String) : Bool :=
  s.data.any fun c => c == ',' || c == '"' || c == '\r' || c == '\n'

def escapeQuotes (s : String) : String :=
  ⟨s.data.flatMap fun c => if c = '"' then ['"', '"'] else [c]⟩

def csvField (s : String) : String :=
  if needsQuote s then "\"" ++ escapeQuotes s ++ "\"" else s

def joinComma : List String → String
  | [] => ""
  | [s] => s
  | s :: t :: rest => s ++ "," ++ joinComma (t :: rest)

def csvLine (fields : List String) : String := joinComma (fields.map csvField) ++ "\r\n"

def headerFields : List String :=
  ["role", "location", "title", "link", "source", "official_site", "experience_match", "snippet"]

def recordFields (r : JobRecord) : List String :=
  [r.role, r.location, r.title, r.link, r.source,
   pyStrBool r.official_site, pyStrBool r.experience_match, r.snippet]

def to_csv_bytes (rows : List JobRecord) : String :=
  rows.foldl (fun out r => out ++ csvLine (recordFields r)) (csvLine headerFields)

def badgeOf (j : JobRecord) : String :=
  if j.official_site then "✅ Official Site" else "🔗 Job Link"

def htmlIntro : String :=
  "\n    <h2>Daily Job Openings (0–3 Years Experience)</h2>\n    <p>Official company career pages are listed first.</p>\n    <ul>\n    "

def renderJob (j : JobRecord) : String :=
  "\n        <li>\n            <a href=\"" ++ j.link ++ "\">" ++ j.title ++
    "</a>\n            <br/>\n            <small>" ++ j.location ++ " | " ++ badgeOf j ++
    "</small>\n        </li>\n        "

def buildHtml (jobs : List JobRecord) : String :=
  ((jobs.take 50).foldl (fun h j => h ++ renderJob j) htmlIntro) ++ "</ul>"

structure EmailArtifacts where
  html : String
  csvAttachment : String

def send_email_artifacts (jobs : List JobRecord) : EmailArtifacts :=
  { html := buildHtml jobs, csvAttachment := to_csv_bytes jobs }

-- ---------------- MAIN ----------------

structure RunTrace where
  issued : List SearchParams
  jobs : List JobRecord
  mailAttempted : Bool
  exitCode : Nat

def issuedParams (env : Env) : List SearchParams :=
  ROLES.flatMap fun role =>
    LOCATIONS.flatMap fun location =>
      (queriesFor role location).map fun query => mkParams env.SERPAPI_API_KEY query location

def mainRun (env : Env) (provider : Provider) (mailOk : Bool) : RunTrace :=
  let jobs := collect_jobs env provider
  if jobs.isEmpty then
    { issued := issuedParams env, jobs := jobs, mailAttempted := false, exitCode := 0 }
  else
    { issued := issuedParams env, jobs := jobs, mailAttempted := true,
      exitCode := if mailOk then 0 else 1 }

-- ---------------- CONCRETE FIXTURES ----------------

def env0 : Env :=
  { SERPAPI_API_KEY := none, SMTP_USER := none, SMTP_PASS := none, RECIPIENT_EMAIL := none }

def failProvider : Provider := fun _ => Except.error "connection error"

def item0 : SerpItem :=
  { title := some "T", link := some "https://example.com/jobs/1",
    snippet := some "fresher role", displayed_link := some "example.com" }

def oneResultProvider : Provider := fun _ =>
  Except.ok { organic_results := some [item0] }

def j0 : JobRecord :=
  { role := "software developer", location := "Chennai", title := "T",
    link := "https://example.com/jobs/1", source := "example.com",
    official_site := true, experience_match := true, snippet := "fresher role" }

-- a provider transformation replacing every failing call by a call that
-- succeeds with an empty organic result list
def errorsToEmpty (provider : Provider) : Provider := fun p =>
  match provider p with
  | Except.error _ => Except.ok { organic_results := some [] }
  | Except.ok d => Except.ok d

-- plain concatenation of a list of strings, used to state the shapes of
-- the folded string buffers of to_csv_bytes and the HTML body
def strJoin : List String → String
  | [] => ""
  | s :: rest => s ++ strJoin rest

-- fixture records for the sort stability scenario of the spec
def jA : JobRecord :=
  { role := "r", location := "l", title := "A", link := "a", source := "s",
    official_site := false, experience_match := false, snippet := "" }

def jB : JobRecord :=
  { role := "r", location := "l", title := "B", link := "b", source := "s",
    official_site := true, experience_match := false, snippet := "" }

def jC : JobRecord :=
  { role := "r", location := "l", title := "C", link := "c", source := "s",
    official_site := false, experience_match := false, snippet := "" }

def jD : JobRecord :=
  { role := "r", location := "l", title := "D", link := "d", source := "s",
    official_site := true, experience_match := false, snippet := "" }

-- fixture records for the CSV newline behaviour
def rNL : JobRecord :=
  { role := "r", location := "l", title := "t", link := "k", source := "s",
    official_site := false, experience_match := false, snippet := "a\nb" }

def rFlat : JobRecord :=
  { role := "r", location := "l", title := "t", link := "k", source := "s",
    official_site := false, experience_match := false, snippet := "a b" }

-- ---------------- GENERAL LEMMAS ----------------

set_option maxRecDepth 100000

theorem toLower_idem (c : Char) : c.toLower.toLower = c.toLower := by
  have aux : ∀ n : Nat, n < 91 → 65 ≤ n →
      ¬((Char.ofNat (n + 32)).toNat ≥ 65 ∧ (Char.ofNat (n + 32)).toNat ≤ 90) := by decide
  by_cases h : c.toNat ≥ 65 ∧ c.toNat ≤ 90
  · have h1 : c.toLower = Char.ofNat (c.toNat + 32) := by
      simp only [Char.toLower, if_pos h]
    rw [h1]
    simp only [Char.toLower]
    rw [if_neg (aux c.toNat (by omega) h.1)]
  · have h1 : c.toLower = c := by simp only [Char.toLower, if_neg h]
    rw [h1, h1]

theorem lowerStr_idem (s : String) : lowerStr (lowerStr s) = lowerStr s := by
  have hcomp : Char.toLower ∘ Char.toLower = Char.toLower := funext toLower_idem
  cases s with
  | mk d =>
    show String.mk ((d.map Char.toLower).map Char.toLower) = String.mk (d.map Char.toLower)
    rw [List.map_map, hcomp]

theorem foldl_append_strJoin {α : Type} (f : α → String) (l : List α) (init : String) :
    l.foldl (fun out x => out ++ f x) init = init ++ strJoin (l.map f) := by
  induction l generalizing init with
  | nil => simp [strJoin]
  | cons x xs ih =>
    simp only [List.foldl_cons, List.map_cons, strJoin]
    rw [ih, String.append_assoc]

theorem collect_jobs_eq_nil_of_errors (env : Env) (provider : Provider)
    (h : ∀ p, ∃ e, provider p = Except.error e) : collect_jobs env provider = [] := by
  have hent : collectEntries env provider = [] := by
    unfold collectEntries entriesOf
    rw [List.flatMap_eq_nil_iff]
    intro role _hr
    rw [List.flatMap_eq_nil_iff]
    intro location _hl
    rw [List.flatMap_eq_nil_iff]
    intro query _hq
    obtain ⟨e, he⟩ := h (mkParams env.SERPAPI_API_KEY query location)
    simp [runSearch, he, serpapi_search]
  unfold collect_jobs collectRaw
  rw [hent]
  simp [sortJobs, List.mergeSort_nil]

-- ---------------- SORT LEMMAS ----------------

theorem officialLe_trans :
    ∀ a b c : JobRecord, officialLe a b = true → officialLe b c = true → officialLe a c = true := by
  intro a b c
  unfold officialLe
  cases a.official_site <;> cases b.official_site <;> cases c.official_site <;> simp

theorem officialLe_total : ∀ a b : JobRecord, (officialLe a b || officialLe b a) = true := by
  intro a b
  unfold officialLe
  cases a.official_site <;> cases b.official_site <;> simp

theorem sorted_eq_partition :
    ∀ l : List JobRecord, List.Pairwise (fun a b => officialLe a b = true) l →
      l = l.filter (fun j => j.official_site) ++ l.filter (fun j => !j.official_site) := by
  intro l
  induction l with
  | nil => intro _; rfl
  | cons x xs ih =>
    intro hp
    rw [List.pairwise_cons] at hp
    obtain ⟨hx, hxs⟩ := hp
    have hxs2 := ih hxs
    cases hox : x.official_site with
    | false =>
      have hall : ∀ y ∈ xs, y.official_site = false := by
        intro y hy
        have hxy := hx y hy
        unfold officialLe at hxy
        rw [hox] at hxy
        simpa using hxy
      have h1 : xs.filter (fun j => j.official_site) = [] := by
        rw [List.filter_eq_nil_iff]
        intro a ha
        simp [hall a ha]
      have h2 : xs.filter (fun j => !j.official_site) = xs := by
        rw [List.filter_eq_self]
        intro a ha
        simp [hall a ha]
      simp [List.filter_cons, hox, h1, h2]
    | true =>
      simp only [List.filter_cons, hox, if_pos, Bool.not_true, if_neg, Bool.false_eq_true,
        not_false_eq_true, List.cons_append]
      exact congrArg (List.cons x) hxs2

theorem sortJobs_eq_partition (l : List JobRecord) :
    sortJobs l = l.filter (fun j => j.official_site) ++ l.filter (fun j => !j.official_site) := by
  have hperm : (sortJobs l).Perm l := List.mergeSort_perm l officialLe
  have hsorted : List.Pairwise (fun a b => officialLe a b = true) (sortJobs l) :=
    List.sorted_mergeSort officialLe_trans officialLe_total l
  have hpart := sorted_eq_partition _ hsorted
  have hsub1 : (l.filter (fun j => j.official_site)).Sublist (sortJobs l) := by
    apply List.mergeSort_stable officialLe_trans officialLe_total
    · apply List.pairwise_of_forall_mem_list
      intro a ha b _hb
      have ha2 := (List.mem_filter.mp ha).2
      unfold officialLe
      simp only at ha2
      rw [ha2]
      simp
    · exact List.filter_sublist l
  have hsub2 : (l.filter (fun j => !j.official_site)).Sublist (sortJobs l) := by
    apply List.mergeSort_stable officialLe_trans officialLe_total
    · apply List.pairwise_of_forall_mem_list
      intro a _ha b hb
      have hb2 := (List.mem_filter.mp hb).2
      unfold officialLe
      simp only at hb2
      rw [hb2]
      simp
    · exact List.filter_sublist l
  have hff1 : (l.filter (fun j => j.official_site)).filter (fun j => j.official_site)
      = l.filter (fun j => j.official_site) := by
    rw [List.filter_eq_self]
    intro a ha
    exact (List.mem_filter.mp ha).2
  have hff2 : (l.filter (fun j => !j.official_site)).filter (fun j => !j.official_site)
      = l.filter (fun j => !j.official_site) := by
    rw [List.filter_eq_self]
    intro a ha
    exact (List.mem_filter.mp ha).2
  have h1f : (l.filter (fun j => j.official_site)).Sublist
      ((sortJobs l).filter (fun j => j.official_site)) := by
    have := List.Sublist.filter (fun j => j.official_site) hsub1
    rwa [hff1] at this
  have h2f : (l.filter (fun j => !j.official_site)).Sublist
      ((sortJobs l).filter (fun j => !j.official_site)) := by
    have := List.Sublist.filter (fun j => !j.official_site) hsub2
    rwa [hff2] at this
  have hlen1 : (l.filter (fun j => j.official_site)).length
      = ((sortJobs l).filter (fun j => j.official_site)).length := by
    rw [← List.countP_eq_length_filter, ← List.countP_eq_length_filter]
    exact (hperm.countP_eq _).symm
  have hlen2 : (l.filter (fun j => !j.official_site)).length
      = ((sortJobs l).filter (fun j => !j.official_site)).length := by
    rw [← List.countP_eq_length_filter, ← List.countP_eq_length_filter]
    exact (hperm.countP_eq _).symm
  have heq1 : (sortJobs l).filter (fun j => j.official_site)
      = l.filter (fun j => j.official_site) := (h1f.eq_of_length hlen1).symm
  have heq2 : (sortJobs l).filter (fun j => !j.official_site)
      = l.filter (fun j => !j.official_site) := (h2f.eq_of_length hlen2).symm
  calc sortJobs l
      = (sortJobs l).filter (fun j => j.official_site)
          ++ (sortJobs l).filter (fun j => !j.official_site) := hpart
    _ = l.filter (fun j => j.official_site) ++ l.filter (fun j => !j.official_site) := by
        rw [heq1, heq2]

-- ---------------- DEDUP LEMMAS ----------------

theorem dedup_first_occ (entries : List (String × String × RawResult)) :
    ∀ (seen : List String) (jobs : List JobRecord),
      ∀ j ∈ (entries.foldl dedupStep (seen, jobs)).2,
        j ∈ jobs ∨
          (j.link ∉ seen ∧ j.link ≠ "" ∧
            ∃ e, entries.find? (fun e => e.2.2.link == j.link) = some e ∧
              j = mkJobRecord e.1 e.2.1 e.2.2) := by
  induction entries with
  | nil => intro seen jobs j hj; exact Or.inl hj
  | cons e es ih =>
    intro seen jobs j hj
    rw [List.foldl_cons] at hj
    by_cases hskip : e.2.2.link = "" ∨ e.2.2.link ∈ seen
    · have hstep : dedupStep (seen, jobs) e = (seen, jobs) := by
        simp [dedupStep, hskip]
      rw [hstep] at hj
      rcases ih seen jobs j hj with hin | ⟨hs, hne, e2, hfind, hje⟩
      · exact Or.inl hin
      · refine Or.inr ⟨hs, hne, e2, ?_, hje⟩
        have hpe : ¬((e.2.2.link == j.link) = true) := by
          intro hbeq
          have heq : e.2.2.link = j.link := eq_of_beq hbeq
          rcases hskip with h0 | h0
          · rw [heq] at h0
            exact hne h0
          · rw [heq] at h0
            exact hs h0
        rw [@List.find?_cons_of_neg _ (fun x => x.2.2.link == j.link) e es hpe]
        exact hfind
    · have hstep : dedupStep (seen, jobs) e
          = (e.2.2.link :: seen, jobs ++ [mkJobRecord e.1 e.2.1 e.2.2]) := by
        simp only [dedupStep, if_neg hskip]
      rw [hstep] at hj
      push_neg at hskip
      rcases ih _ _ j hj with hin | ⟨hs, hne, e2, hfind, hje⟩
      · rcases List.mem_append.mp hin with hin2 | hin2
        · exact Or.inl hin2
        · have hjeq : j = mkJobRecord e.1 e.2.1 e.2.2 := List.mem_singleton.mp hin2
          have hl : j.link = e.2.2.link := by rw [hjeq]; rfl
          refine Or.inr ⟨?_, ?_, e, ?_, hjeq⟩
          · rw [hl]; exact hskip.2
          · rw [hl]; exact hskip.1
          · apply List.find?_cons_of_pos
            show (e.2.2.link == j.link) = true
            rw [hl]
            exact beq_self_eq_true _
      · have hs2 : j.link ∉ seen := fun hc => hs (List.mem_cons.mpr (Or.inr hc))
        have hne2 : j.link ≠ e.2.2.link := fun hc => hs (List.mem_cons.mpr (Or.inl hc))
        refine Or.inr ⟨hs2, hne, e2, ?_, hje⟩
        have hpe2 : ¬((e.2.2.link == j.link) = true) := by
          intro hbeq
          exact hne2 (eq_of_beq hbeq).symm
        rw [@List.find?_cons_of_neg _ (fun x => x.2.2.link == j.link) e es hpe2]
        exact hfind

theorem dedup_closed (entries : List (String × String × RawResult)) :
    ∀ (seen : List String) (jobs : List JobRecord),
      ((jobs.map (fun j => j.link)).Nodup ∧ ∀ j ∈ jobs, j.link ∈ seen ∧ j.link ≠ "") →
        (((entries.foldl dedupStep (seen, jobs)).2.map (fun j => j.link)).Nodup ∧
          ∀ j ∈ (entries.foldl dedupStep (seen, jobs)).2,
            j.link ∈ (entries.foldl dedupStep (seen, jobs)).1 ∧ j.link ≠ "") := by
  induction entries with
  | nil => intro seen jobs h; simpa using h
  | cons e es ih =>
    intro seen jobs h
    rw [List.foldl_cons]
    by_cases hskip : e.2.2.link = "" ∨ e.2.2.link ∈ seen
    · have hstep : dedupStep (seen, jobs) e = (seen, jobs) := by
        simp [dedupStep, hskip]
      rw [hstep]
      exact ih seen jobs h
    · have hstep : dedupStep (seen, jobs) e
          = (e.2.2.link :: seen, jobs ++ [mkJobRecord e.1 e.2.1 e.2.2]) := by
        simp only [dedupStep, if_neg hskip]
      rw [hstep]
      push_neg at hskip
      apply ih
      constructor
      · rw [List.map_append, List.nodup_append]
        refine ⟨h.1, by simp, ?_⟩
        intro a ha hb
        obtain ⟨j, hj, hja⟩ := List.mem_map.mp ha
        have hjs := (h.2 j hj).1
        have hb2 : a = e.2.2.link := by simpa using hb
        rw [hja, hb2] at hjs
        exact hskip.2 hjs
      · intro j hj
        rcases List.mem_append.mp hj with hj2 | hj2
        · exact ⟨List.mem_cons.mpr (Or.inr (h.2 j hj2).1), (h.2 j hj2).2⟩
        · have hjeq := List.mem_singleton.mp hj2
          have hl : j.link = e.2.2.link := by rw [hjeq]; rfl
          exact ⟨by rw [hl]; exact List.mem_cons.mpr (Or.inl rfl), by rw [hl]; exact hskip.1⟩

-- ---------------- CLAIMS ----------------

/-- Claim C7: the query builder is a pure function of the role and location
lists; for each (role, location) pair in role-major, location-minor order it
emits exactly the three queries role location fresher, role location junior,
role location 0-3 years, so the total count is 3 times roles times
locations (24 for the configured lists). -/
theorem claim_C7 (roles locations : List String) :
    buildQueries roles locations =
      (roles.product locations).flatMap
        (fun p => [p.1 ++ " " ++ p.2 ++ " fresher",
                   p.1 ++ " " ++ p.2 ++ " junior",
                   p.1 ++ " " ++ p.2 ++ " 0-3 years"]) ∧
    (buildQueries roles locations).length = 3 * roles.length * locations.length ∧
    (buildQueries ROLES LOCATIONS).length = 24 := by
  refine ⟨?_, ?_, by decide⟩
  · simp only [buildQueries, List.product, List.flatMap_assoc, List.flatMap_map]
    rfl
  · have inner : ∀ role : String,
        (locations.flatMap fun location => queriesFor role location).length
          = 3 * locations.length := by
      intro role
      induction locations with
      | nil => simp
      | cons l ls ihl =>
        rw [List.flatMap_cons, List.length_append, ihl]
        simp [queriesFor]
        ring
    induction roles with
    | nil => simp [buildQueries]
    | cons r rs ih =>
      simp only [buildQueries, List.flatMap_cons, List.length_append]
      simp only [buildQueries] at ih
      rw [inner r, ih]
      simp [List.length_cons]
      ring

/-- Claim C9: experience_match is case-insensitive: for every string s it
agrees with its value on the lowercased form of s, and in particular on
JUNIOR role versus junior role. -/
theorem claim_C9 (s : String) :
    experience_match s = experience_match (lowerStr s) ∧
    experience_match "JUNIOR role" = experience_match "junior role" := by
  constructor
  · simp only [experience_match]
    rw [lowerStr_idem]
  · decide

/-- Claim C10: any URL whose lowercased form contains jobs or careers as a
substring is classified official by is_official_site; in particular the
LinkedIn aggregator URL is classified as an official site. -/
theorem claim_C10 (url : String) :
    ((pyIn "jobs" (lowerStr url) = true ∨ pyIn "careers" (lowerStr url) = true) →
      is_official_site url = true) ∧
    is_official_site "https://in.linkedin.com/jobs/view/123" = true := by
  constructor
  · intro h
    simp only [is_official_site]
    rw [List.any_eq_true]
    rcases h with h | h
    · exact ⟨"jobs", by decide, h⟩
    · exact ⟨"careers", by decide, h⟩
  · decide

theorem claim_C10_witness :
    is_official_site "https://in.linkedin.com/jobs/view/123" = true :=
  (claim_C10 "https://in.linkedin.com/jobs/view/123").1 (Or.inl (by decide))

/-- Claim C4: a failing provider call yields the empty result sequence for
that query and the run continues: a run in which some calls fail is
identical to the run in which those calls return an empty organic result
list, and no exception escapes (the collector is a total function). -/
theorem claim_C4 :
    (∀ e : String, serpapi_search (Except.error e) = []) ∧
    serpapi_search (Except.ok { organic_results := some [] }) = [] ∧
    (∀ (env : Env) (provider : Provider),
      collect_jobs env provider = collect_jobs env (errorsToEmpty provider)) := by
  refine ⟨fun e => rfl, rfl, fun env provider => ?_⟩
  have hrs : runSearch (errorsToEmpty provider) = runSearch provider := by
    funext p
    unfold runSearch errorsToEmpty
    cases provider p with
    | error e => rfl
    | ok d => rfl
  unfold collect_jobs collectRaw collectEntries
  rw [hrs]

theorem claim_C4_witness : serpapi_search (Except.error "connection error") = [] :=
  claim_C4.1 "connection error"

/-- Claim C6: when the collector returns no records, mail is not attempted
and the run exits 0. -/
theorem claim_C6 (env : Env) (provider : Provider) (mailOk : Bool)
    (h : collect_jobs env provider = []) :
    (mainRun env provider mailOk).mailAttempted = false ∧
    (mainRun env provider mailOk).exitCode = 0 := by
  simp [mainRun, h]

theorem claim_C6_witness :
    (mainRun env0 failProvider true).mailAttempted = false ∧
    (mainRun env0 failProvider true).exitCode = 0 :=
  claim_C6 env0 failProvider true
    (collect_jobs_eq_nil_of_errors env0 failProvider (fun _ => ⟨"connection error", rfl⟩))

/-- Claim C1 counterexample: with every required environment value absent,
the run does not terminate before invoking the search collaborator and
does not exit with status 1: all 24 search calls are issued and, with the
provider failing, the process exits 0. -/
theorem claim_C1_cex :
    env0.SERPAPI_API_KEY = none ∧ env0.SMTP_USER = none ∧ env0.SMTP_PASS = none ∧
    env0.RECIPIENT_EMAIL = none ∧
    (mainRun env0 failProvider true).issued.length = 24 ∧
    (mainRun env0 failProvider true).exitCode = 0 := by
  have hjobs : collect_jobs env0 failProvider = [] :=
    collect_jobs_eq_nil_of_errors env0 failProvider (fun _ => ⟨"connection error", rfl⟩)
  refine ⟨rfl, rfl, rfl, rfl, ?_, ?_⟩
  · simp [mainRun, hjobs]
    decide
  · simp [mainRun, hjobs]

/-- Claim C1 (amended): the program performs no startup validation of the
environment configuration: whatever values are absent, main still issues
every one of the 24 search requests (carrying the absent key in the
request parameters), and when every provider call fails the run produces
zero jobs, skips mail and exits 0 rather than 1. -/
theorem claim_C1 (env : Env) (provider : Provider) (mailOk : Bool) :
    (mainRun env provider mailOk).issued = issuedParams env ∧
    (issuedParams env).length = 24 ∧
    ((∀ p, ∃ e, provider p = Except.error e) →
      (mainRun env provider mailOk).mailAttempted = false ∧
      (mainRun env provider mailOk).exitCode = 0) := by
  refine ⟨?_, ?_, ?_⟩
  · simp [mainRun]
    split <;> rfl
  · simp [issuedParams, ROLES, LOCATIONS, queriesFor]
  · intro h
    have hjobs := collect_jobs_eq_nil_of_errors env provider h
    simp [mainRun, hjobs]

theorem claim_C1_witness :
    (mainRun env0 failProvider true).mailAttempted = false ∧
    (mainRun env0 failProvider true).exitCode = 0 := by
  have h := (claim_C1 env0 failProvider true).2.2 (fun _ => ⟨"connection error", rfl⟩)
  exact h

/-- Claim C2: within a run at most one JobRecord exists per distinct link
value: the links of the collector output are pairwise distinct, none is
empty, and every record equals the record built from the first raw result
with that link in query order (so later duplicates are dropped, not merged
or overwritten, and empty links never produce a record). -/
theorem claim_C2 (env : Env) (provider : Provider) :
    ((collect_jobs env provider).map (fun j => j.link)).Nodup ∧
    (∀ j ∈ collect_jobs env provider, j.link ≠ "") ∧
    (∀ j ∈ collect_jobs env provider,
      ∃ e, (collectEntries env provider).find? (fun e => e.2.2.link == j.link) = some e ∧
        j = mkJobRecord e.1 e.2.1 e.2.2) := by
  have hperm : (collect_jobs env provider).Perm (collectRaw env provider) :=
    List.mergeSort_perm (collectRaw env provider) officialLe
  have hclosed := dedup_closed (collectEntries env provider) [] []
    (by constructor
        · simp
        · intro j hj
          simp at hj)
  refine ⟨?_, ?_, ?_⟩
  · have hmap := hperm.map (fun j => j.link)
    rw [hmap.nodup_iff]
    exact hclosed.1
  · intro j hj
    have hj2 : j ∈ collectRaw env provider := hperm.mem_iff.mp hj
    exact (hclosed.2 j hj2).2
  · intro j hj
    have hj2 : j ∈ collectRaw env provider := hperm.mem_iff.mp hj
    rcases dedup_first_occ (collectEntries env provider) [] [] j hj2 with
      hin | ⟨_, _, e, hfind, hje⟩
    · exact absurd hin (List.not_mem_nil j)
    · exact ⟨e, hfind, hje⟩

theorem claim_C2_witness :
    j0.link ≠ "" ∧
    ∃ e, (collectEntries env0 oneResultProvider).find? (fun e => e.2.2.link == j0.link)
        = some e ∧ j0 = mkJobRecord e.1 e.2.1 e.2.2 := by
  have hmem : j0 ∈ collect_jobs env0 oneResultProvider := by
    have hr : collectRaw env0 oneResultProvider = [j0] := by decide
    show j0 ∈ sortJobs (collectRaw env0 oneResultProvider)
    rw [hr, sortJobs_eq_partition]
    decide
  exact ⟨(claim_C2 env0 oneResultProvider).2.1 j0 hmem,
         (claim_C2 env0 oneResultProvider).2.2 j0 hmem⟩

/-- Claim C3: the collector output is the stable descending sort of the
discovery-order records by official_site: it is a permutation of the
discovery order, official records all precede non-official ones, the
records of each official_site class keep their discovery order, and the
spec scenario A(false), B(true), C(false), D(true) sorts to B, D, A, C. -/
theorem claim_C3 (env : Env) (provider : Provider) (l : List JobRecord) :
    collect_jobs env provider = sortJobs (collectRaw env provider) ∧
    (sortJobs l).Perm l ∧
    List.Pairwise (fun a b => b.official_site = true → a.official_site = true) (sortJobs l) ∧
    (∀ b : Bool, (sortJobs l).filter (fun j => j.official_site == b)
      = l.filter (fun j => j.official_site == b)) ∧
    sortJobs [jA, jB, jC, jD] = [jB, jD, jA, jC] := by
  refine ⟨rfl, List.mergeSort_perm l officialLe, ?_, ?_, ?_⟩
  · rw [sortJobs_eq_partition, List.pairwise_append]
    refine ⟨?_, ?_, ?_⟩
    · apply List.pairwise_of_forall_mem_list
      intro a ha b _hb _hbt
      have ha2 := (List.mem_filter.mp ha).2
      simpa using ha2
    · apply List.pairwise_of_forall_mem_list
      intro a _ha b hb hbt
      have hb2 := (List.mem_filter.mp hb).2
      simp only at hb2
      rw [hbt] at hb2
      simp at hb2
    · intro a ha b _hb _hbt
      have ha2 := (List.mem_filter.mp ha).2
      simpa using ha2
  · intro b
    rw [sortJobs_eq_partition, List.filter_append]
    cases b with
    | true =>
      have h1 : (l.filter (fun j => j.official_site)).filter
          (fun j => j.official_site == true) = l.filter (fun j => j.official_site) := by
        rw [List.filter_eq_self]
        intro a ha
        have := (List.mem_filter.mp ha).2
        simp only at this
        simp [this]
      have h2 : (l.filter (fun j => !j.official_site)).filter
          (fun j => j.official_site == true) = [] := by
        rw [List.filter_eq_nil_iff]
        intro a ha
        have := (List.mem_filter.mp ha).2
        simp only at this
        simp [Bool.not_eq_true] at this
        simp [this]
      rw [h1, h2, List.append_nil]
      apply List.filter_congr
      intro a _
      cases ha : a.official_site <;> simp [ha]
    | false =>
      have h1 : (l.filter (fun j => j.official_site)).filter
          (fun j => j.official_site == false) = [] := by
        rw [List.filter_eq_nil_iff]
        intro a ha
        have := (List.mem_filter.mp ha).2
        simp only at this
        simp [this]
      have h2 : (l.filter (fun j => !j.official_site)).filter
          (fun j => j.official_site == false) = l.filter (fun j => !j.official_site) := by
        rw [List.filter_eq_self]
        intro a ha
        have := (List.mem_filter.mp ha).2
        simp only at this
        simp [Bool.not_eq_true] at this
        simp [this]
      rw [h1, h2, List.nil_append]
      apply List.filter_congr
      intro a _
      cases ha : a.official_site <;> simp [ha]
  · rw [sortJobs_eq_partition]
    decide

theorem claim_C3_witness : sortJobs [jA, jB, jC, jD] = [jB, jD, jA, jC] :=
  (claim_C3 env0 failProvider []).2.2.2.2

/-- Claim C5 counterexample: values containing newlines are not flattened
to spaces: a record whose snippet is a LF b is written to the CSV with the
newline preserved inside a quoted field, and its CSV differs from the CSV
of the flattened record. -/
theorem claim_C5_cex :
    to_csv_bytes [rNL]
      = "role,location,title,link,source,official_site,experience_match,snippet\r\nr,l,t,k,s,False,False,\"a\nb\"\r\n" ∧
    to_csv_bytes [rNL] ≠ to_csv_bytes [rFlat] := by
  constructor
  · decide
  · decide

/-- Claim C5 (amended): the CSV artifact is the fixed header row followed
by exactly one row per JobRecord in collector order; a value containing a
newline is quoted with the newline preserved (standard CSV quoting with
quote doubling), not flattened to a space. -/
theorem claim_C5 (rows : List JobRecord) :
    to_csv_bytes rows
      = csvLine headerFields ++ strJoin (rows.map fun r => csvLine (recordFields r)) ∧
    csvField "a\nb" = "\"a\nb\"" := by
  constructor
  · exact foldl_append_strJoin (fun r => csvLine (recordFields r)) rows (csvLine headerFields)
  · decide

/-- Claim C8: the HTML body renders exactly the first 50 post-sort records
(all of them when there are at most 50) while the CSV attachment carries
every record untruncated. -/
theorem claim_C8 (jobs : List JobRecord) :
    buildHtml jobs = htmlIntro ++ strJoin ((jobs.take 50).map renderJob) ++ "</ul>" ∧
    (send_email_artifacts jobs).csvAttachment = to_csv_bytes jobs ∧
    (jobs.length ≤ 50 → buildHtml jobs = htmlIntro ++ strJoin (jobs.map renderJob) ++ "</ul>") ∧
    (50 ≤ jobs.length → ((jobs.take 50).map renderJob).length = 50) := by
  refine ⟨?_, rfl, ?_, ?_⟩
  · simp only [buildHtml]
    rw [foldl_append_strJoin]
  · intro h
    simp only [buildHtml, List.take_of_length_le h]
    rw [foldl_append_strJoin]
  · intro h
    rw [List.length_map, List.length_take]
    omega

theorem claim_C8_witness :
    buildHtml [] = htmlIntro ++ strJoin (([] : List JobRecord).map renderJob) ++ "</ul>" ∧
    (((List.replicate 51 j0).take 50).map renderJob).length = 50 :=
  ⟨(claim_C8 []).2.2.1 (by decide), (claim_C8 (List.replicate 51 j0)).2.2.2 (by decide)⟩

end JobAlert
